import Mathlib

/-!
Shallow embedding of the GenesisPad core contracts (`GenesisToken` and
`GenesisTokenFactory` from `src/tasks/genesis.ts`, Solidity ^0.8.27).

Addresses and identities are modelled as `Nat`; `uint64` and `uint256`
values are `Nat` with explicit `% 2 ^ 64` / `% 2 ^ 256` where the source
casts or widens.  A Solidity `revert` (failed `require`, out-of-bounds
array access, or a failure inside the FHE capability) is modelled by
`Except`: the `run*` wrappers return the pre-call state together with the
error, which is exactly the EVM's all-or-nothing transaction semantics.
The confidential (FHE) ledger is opaque in the source — the contract only
ever appends a credit via `FHE.asEuint64` + `_mint` — so it is modelled as
the list of credit events `(recipient, amount)`.
-/

/-- Failure taxonomy of the contracts.
`invalidArgument` covers the revert strings "Name required",
"Symbol required", "Max supply required" and "Amount required";
`supplyExceeded` is the revert string "Exceeds supply";
`indexOutOfRange` is the Solidity panic on an out-of-bounds array read;
`capabilityFailure` is a revert raised inside the external
confidential-computation capability (`FHE.asEuint64` / `_mint`). -/
inductive GenesisError where
  | invalidArgument
  | supplyExceeded
  | indexOutOfRange
  | capabilityFailure
deriving DecidableEq, Repr

/-- Decidable equality of call results, used to evaluate the model on
concrete inputs. -/
instance {ε α : Type} [DecidableEq ε] [DecidableEq α] : DecidableEq (Except ε α) := fun x y =>
  match x, y with
  | .ok a, .ok b => if h : a = b then .isTrue (by rw [h]) else .isFalse (by simp [h])
  | .ok _, .error _ => .isFalse (by simp)
  | .error _, .ok _ => .isFalse (by simp)
  | .error e, .error f => if h : e = f then .isTrue (by rw [h]) else .isFalse (by simp [h])

/-- State of one deployed `GenesisToken` contract.
`ledger` is the opaque encrypted balance ledger, recorded as the sequence
of confidential credits `(recipient, amount)`; `events` is the sequence of
emitted `Minted(minter, recipient, amount)` events. -/
structure TokenState where
  name : String
  symbol : String
  maxSupply : Nat
  mintedSupply : Nat
  initialPriceWei : Nat
  creator : Nat
  ledger : List (Nat × Nat)
  events : List (Nat × Nat × Nat)
deriving DecidableEq, Repr

/-- The `GenesisToken` constructor:
`require(bytes(name_).length > 0)`, `require(bytes(symbol_).length > 0)`,
`require(maxSupply_ > 0)`, then the fields are set with
`mintedSupply = 0` (uint64 default). -/
def GenesisToken.new (name symbol : String) (maxSupply initialPriceWei creator : Nat) :
    Except GenesisError TokenState :=
  if name = "" then .error .invalidArgument
  else if symbol = "" then .error .invalidArgument
  else if maxSupply = 0 then .error .invalidArgument
  else .ok
    { name := name
      symbol := symbol
      maxSupply := maxSupply
      mintedSupply := 0
      initialPriceWei := initialPriceWei
      creator := creator
      ledger := []
      events := [] }

/-- `GenesisToken.mint(to, amount)` with `msg.sender = caller`.
Follows the source line by line:
`require(amount > 0, "Amount required")`;
`uint256 newSupply = uint256(mintedSupply) + amount` (widened, uint256
arithmetic is modulo `2 ^ 256`);
`require(newSupply <= maxSupply, "Exceeds supply")`;
`mintedSupply = uint64(newSupply)` (cast truncates modulo `2 ^ 64`);
then the confidential credit (`FHE.asEuint64` + `_mint`) and the `Minted`
event.  `capOk` is the outcome of the external FHE capability on this
call: when it is `false` the capability reverts and the whole call
fails. -/
def GenesisToken.mint (st : TokenState) (caller recipient amount : Nat) (capOk : Bool) :
    Except GenesisError TokenState :=
  if amount = 0 then .error .invalidArgument
  else
    let newSupply := (st.mintedSupply + amount) % 2 ^ 256
    if newSupply > st.maxSupply then .error .supplyExceeded
    else
      let st1 := { st with mintedSupply := newSupply % 2 ^ 64 }
      if capOk then
        let st2 := { st1 with ledger := st1.ledger ++ [(recipient, amount)] }
        .ok { st2 with events := st2.events ++ [(caller, recipient, amount)] }
      else .error .capabilityFailure

/-- One `mint` transaction with EVM revert semantics: on any failure the
pre-call state is restored. -/
def runMint (st : TokenState) (caller recipient amount : Nat) (capOk : Bool) :
    TokenState × Except GenesisError Unit :=
  match GenesisToken.mint st caller recipient amount capOk with
  | .ok st1 => (st1, .ok ())
  | .error e => (st, .error e)

/-- One call in a sequence of `mint` transactions. -/
structure MintCall where
  caller : Nat
  recipient : Nat
  amount : Nat
  capOk : Bool
deriving DecidableEq, Repr

/-- Run a sequence of `mint` transactions, keeping the state left by each
(successful or reverted) call. -/
def runMintSeq (st : TokenState) (calls : List MintCall) : TokenState :=
  calls.foldl (fun s c => (runMint s c.caller c.recipient c.amount c.capOk).1) st

/-- One registry entry (`TokenMetadata` struct of the factory).
`token` is the instance handle: in this model the deployed instances live
in a list and the handle is the index of the instance in it. -/
structure TokenMetadata where
  token : Nat
  name : String
  symbol : String
  maxSupply : Nat
  mintedSupply : Nat
  initialPriceWei : Nat
  creator : Nat
deriving DecidableEq, Repr

/-- State of the `GenesisTokenFactory` contract together with the token
instances it has deployed: `tokens` is the `_tokens` array, `instances`
the deployed `GenesisToken` contracts, addressed by list index. -/
structure FactoryState where
  tokens : List TokenMetadata
  instances : List TokenState
deriving DecidableEq, Repr

/-- The live read `GenesisToken(handle).mintedSupply()` performed by the
factory's read functions. -/
def FactoryState.liveSupply (fs : FactoryState) (handle : Nat) : Nat :=
  ((fs.instances[handle]?).map TokenState.mintedSupply).getD 0

/-- `GenesisTokenFactory.createToken(name_, symbol_, maxSupply_,
initialPriceWei_)` with `msg.sender = caller`: deploys a new
`GenesisToken` (whose constructor may revert), then pushes a
`TokenMetadata` record with `mintedSupply: 0` onto `_tokens` and returns
the new instance's handle. -/
def GenesisTokenFactory.createToken (fs : FactoryState) (caller : Nat)
    (name symbol : String) (maxSupply initialPriceWei : Nat) :
    Except GenesisError (FactoryState × Nat) :=
  match GenesisToken.new name symbol maxSupply initialPriceWei caller with
  | .error e => .error e
  | .ok inst =>
    let handle := fs.instances.length
    let meta : TokenMetadata :=
      { token := handle
        name := name
        symbol := symbol
        maxSupply := maxSupply
        mintedSupply := 0
        initialPriceWei := initialPriceWei
        creator := caller }
    .ok ({ tokens := fs.tokens ++ [meta], instances := fs.instances ++ [inst] }, handle)

/-- One `createToken` transaction with EVM revert semantics. -/
def runCreate (fs : FactoryState) (caller : Nat) (name symbol : String)
    (maxSupply initialPriceWei : Nat) : FactoryState × Except GenesisError Nat :=
  match GenesisTokenFactory.createToken fs caller name symbol maxSupply initialPriceWei with
  | .ok (fs1, handle) => (fs1, .ok handle)
  | .error e => (fs, .error e)

/-- `GenesisTokenFactory.getTokens()`: for every stored record, replace
the snapshot `mintedSupply` with the live value read from the instance.
The source's index loop builds the output list element by element, which
is a map over `_tokens`. -/
def GenesisTokenFactory.getTokens (fs : FactoryState) : List TokenMetadata :=
  fs.tokens.map fun stored => { stored with mintedSupply := fs.liveSupply stored.token }

/-- `GenesisTokenFactory.getToken(index)`: the array access
`_tokens[index]` panics (reverts) when `index` is out of bounds;
otherwise the single record is returned with the live `mintedSupply`. -/
def GenesisTokenFactory.getToken (fs : FactoryState) (index : Nat) :
    Except GenesisError TokenMetadata :=
  match fs.tokens[index]? with
  | some stored => .ok { stored with mintedSupply := fs.liveSupply stored.token }
  | none => .error .indexOutOfRange

/-- `GenesisTokenFactory.tokenCount()`. -/
def GenesisTokenFactory.tokenCount (fs : FactoryState) : Nat :=
  fs.tokens.length

/-- Example factory / token states used to evaluate the theorems on the
concrete scenario of the repository's test suite (token "Genesis USD",
cap 1000000). -/
def stEx : TokenState :=
  { name := "Genesis USD", symbol := "gUSD", maxSupply := 1000000, mintedSupply := 0,
    initialPriceWei := 50, creator := 1, ledger := [], events := [] }

/-- A token state at the 64-bit boundary: the cap is the largest uint64
and the supply sits right at the cap. -/
def stNear : TokenState :=
  { name := "Edge", symbol := "EDG", maxSupply := 2 ^ 64 - 1, mintedSupply := 2 ^ 64 - 1,
    initialPriceWei := 0, creator := 1, ledger := [], events := [] }

/-- The empty factory, as freshly deployed. -/
def fsEx : FactoryState := { tokens := [], instances := [] }

/-- The factory after one successful `createToken` call. -/
def fsEx1 : FactoryState := (runCreate fsEx 1 "Genesis USD" "gUSD" 1000000 50).1

/-- On a reverted `mint` the pre-call state is kept. -/
theorem runMint_error_fst (st : TokenState) (c r a : Nat) (cap : Bool) (e : GenesisError)
    (h : (runMint st c r a cap).2 = .error e) : (runMint st c r a cap).1 = st := by
  unfold runMint at h ⊢
  cases hm : GenesisToken.mint st c r a cap
  · rfl
  · rw [hm] at h
    simp at h

/-- A single `mint` transaction preserves the cap, keeps the supply below
the cap, and never decreases the supply (for uint64-typed inputs and a
state satisfying the supply invariant). -/
theorem runMint_step (st : TokenState) (c r a : Nat) (cap : Bool)
    (hmax : st.maxSupply < 2 ^ 64) (hinv : st.mintedSupply ≤ st.maxSupply)
    (ha : a < 2 ^ 64) :
    (runMint st c r a cap).1.maxSupply = st.maxSupply ∧
    (runMint st c r a cap).1.mintedSupply ≤ st.maxSupply ∧
    st.mintedSupply ≤ (runMint st c r a cap).1.mintedSupply := by
  simp only [runMint, GenesisToken.mint]
  by_cases h0 : a = 0
  · rw [if_pos h0]
    exact ⟨rfl, hinv, le_refl _⟩
  · rw [if_neg h0, Nat.mod_eq_of_lt (show st.mintedSupply + a < 2 ^ 256 by omega)]
    by_cases hover : st.maxSupply < st.mintedSupply + a
    · rw [if_pos hover]
      exact ⟨rfl, hinv, le_refl _⟩
    · rw [if_neg hover]
      cases cap
      · exact ⟨rfl, hinv, le_refl _⟩
      · rw [Nat.mod_eq_of_lt (show st.mintedSupply + a < 2 ^ 64 by omega)]
        refine ⟨rfl, ?_, ?_⟩
        · show st.mintedSupply + a ≤ st.maxSupply
          omega
        · show st.mintedSupply ≤ st.mintedSupply + a
          omega

/-- Unfolding one call of a `mint` sequence. -/
theorem runMintSeq_cons (st : TokenState) (c : MintCall) (cs : List MintCall) :
    runMintSeq st (c :: cs) =
      runMintSeq ((runMint st c.caller c.recipient c.amount c.capOk).1) cs := rfl

/-- Splitting a `mint` sequence. -/
theorem runMintSeq_append (st : TokenState) (l1 l2 : List MintCall) :
    runMintSeq st (l1 ++ l2) = runMintSeq (runMintSeq st l1) l2 :=
  List.foldl_append _ _ _ _

/-- Any sequence of `mint` transactions preserves the cap, keeps the
supply below the cap, and never decreases it. -/
theorem runMintSeq_invariant (calls : List MintCall) :
    ∀ st : TokenState, st.maxSupply < 2 ^ 64 → st.mintedSupply ≤ st.maxSupply →
    (∀ c ∈ calls, c.amount < 2 ^ 64) →
    (runMintSeq st calls).maxSupply = st.maxSupply ∧
    (runMintSeq st calls).mintedSupply ≤ st.maxSupply ∧
    st.mintedSupply ≤ (runMintSeq st calls).mintedSupply := by
  induction calls with
  | nil =>
    intro st _ hinv _
    exact ⟨rfl, hinv, le_refl _⟩
  | cons c cs ih =>
    intro st hmax hinv hc
    have hstep := runMint_step st c.caller c.recipient c.amount c.capOk hmax hinv
      (hc c (by simp))
    have hmid := ih ((runMint st c.caller c.recipient c.amount c.capOk).1)
      (by rw [hstep.1]; exact hmax) (by rw [hstep.1]; exact hstep.2.1)
      (fun x hx => hc x (by simp [hx]))
    rw [runMintSeq_cons]
    refine ⟨?_, ?_, ?_⟩
    · rw [hmid.1, hstep.1]
    · rw [← hstep.1]; exact hmid.2.1
    · exact le_trans hstep.2.2 hmid.2.2

/-- A `mint` whose exact sum overshoots the cap reverts with
"Exceeds supply" and leaves the state untouched. -/
theorem runMint_over_cap (st : TokenState) (c r a : Nat) (cap : Bool)
    (hmax : st.maxSupply < 2 ^ 64) (hinv : st.mintedSupply ≤ st.maxSupply)
    (ha : a < 2 ^ 64) (hover : st.maxSupply < st.mintedSupply + a) :
    runMint st c r a cap = (st, .error .supplyExceeded) := by
  have h0 : a ≠ 0 := by omega
  simp only [runMint, GenesisToken.mint]
  rw [if_neg h0, Nat.mod_eq_of_lt (show st.mintedSupply + a < 2 ^ 256 by omega),
    if_pos hover]

/-- With a succeeding capability, `mint` succeeds exactly when the exact
(unbounded) sum of supply and amount stays within the cap, for any
uint64-typed supply and positive uint64-typed amount. -/
theorem mint_ok_iff (st : TokenState) (c r a : Nat)
    (hm : st.mintedSupply < 2 ^ 64) (ha : a < 2 ^ 64) (h0 : 0 < a) :
    (runMint st c r a true).2 = .ok () ↔ st.mintedSupply + a ≤ st.maxSupply := by
  have h0' : a ≠ 0 := by omega
  simp only [runMint, GenesisToken.mint]
  rw [if_neg h0', Nat.mod_eq_of_lt (show st.mintedSupply + a < 2 ^ 256 by omega)]
  by_cases hover : st.maxSupply < st.mintedSupply + a
  · rw [if_pos hover]
    simp
    omega
  · rw [if_neg hover]
    simp
    omega

/-- C1: for every token instance and every sequence of `mint` calls on
it, `mintedSupply` is monotonically non-decreasing and the invariant
`0 <= mintedSupply <= maxSupply` holds after every call (the lower bound
is inherent to `Nat`); the first `mint` call that would push
`mintedSupply` past `maxSupply` fails with `SupplyExceeded` and leaves
`mintedSupply` unchanged. -/
theorem mint_sequence_supply_invariant (st : TokenState) (calls : List MintCall)
    (hmax : st.maxSupply < 2 ^ 64) (hinv : st.mintedSupply ≤ st.maxSupply)
    (hcalls : ∀ c ∈ calls, c.amount < 2 ^ 64) :
    (runMintSeq st calls).mintedSupply ≤ st.maxSupply ∧
    (runMintSeq st calls).maxSupply = st.maxSupply ∧
    (∀ extra : List MintCall, (∀ c ∈ extra, c.amount < 2 ^ 64) →
      (runMintSeq st calls).mintedSupply ≤ (runMintSeq st (calls ++ extra)).mintedSupply) ∧
    (∀ c r a : Nat, ∀ cap : Bool, a < 2 ^ 64 →
      st.maxSupply < (runMintSeq st calls).mintedSupply + a →
      runMint (runMintSeq st calls) c r a cap =
        (runMintSeq st calls, .error .supplyExceeded)) := by
  have key := runMintSeq_invariant calls st hmax hinv hcalls
  refine ⟨key.2.1, key.1, ?_, ?_⟩
  · intro extra hextra
    rw [runMintSeq_append]
    exact (runMintSeq_invariant extra (runMintSeq st calls)
      (by rw [key.1]; exact hmax) (by rw [key.1]; exact key.2.1) hextra).2.2
  · intro c r a cap ha hover
    exact runMint_over_cap (runMintSeq st calls) c r a cap
      (by rw [key.1]; exact hmax) (by rw [key.1]; exact key.2.1) ha
      (by rw [key.1]; exact hover)

/-- Witness for C1 on the test scenario of the repository: cap 1000000,
mint 5 then 999995, then a further mint of 1 reverts with
`SupplyExceeded` and changes nothing. -/
theorem mint_sequence_supply_invariant_witness :
    (runMintSeq stEx [⟨2, 3, 5, true⟩, ⟨4, 3, 999995, true⟩]).mintedSupply ≤
      stEx.maxSupply ∧
    runMint (runMintSeq stEx [⟨2, 3, 5, true⟩, ⟨4, 3, 999995, true⟩]) 7 8 1 true =
      (runMintSeq stEx [⟨2, 3, 5, true⟩, ⟨4, 3, 999995, true⟩],
        .error .supplyExceeded) := by
  refine ⟨(mint_sequence_supply_invariant stEx [⟨2, 3, 5, true⟩, ⟨4, 3, 999995, true⟩]
    (by decide) (by decide) (by decide)).1, ?_⟩
  exact (mint_sequence_supply_invariant stEx [⟨2, 3, 5, true⟩, ⟨4, 3, 999995, true⟩]
    (by decide) (by decide) (by decide)).2.2.2 7 8 1 true (by decide) (by decide)

/-- C2: `mint` fails with `InvalidArgument` exactly when `amount = 0`,
fails with `SupplyExceeded` exactly when the widened cap check
`mintedSupply + amount <= maxSupply` fails, and every failing call leaves
the whole token state — in particular `mintedSupply` and the encrypted
ledger — unchanged. -/
theorem mint_failure_characterization (st : TokenState) (c r a : Nat) (cap : Bool)
    (hmax : st.maxSupply < 2 ^ 64) (hinv : st.mintedSupply ≤ st.maxSupply)
    (ha : a < 2 ^ 64) :
    ((runMint st c r a cap).2 = .error .invalidArgument ↔ a = 0) ∧
    ((runMint st c r a cap).2 = .error .supplyExceeded ↔
      st.maxSupply < st.mintedSupply + a) ∧
    (∀ e : GenesisError, (runMint st c r a cap).2 = .error e →
      (runMint st c r a cap).1 = st) := by
  refine ⟨?_, ?_, fun e he => runMint_error_fst st c r a cap e he⟩
  · simp only [runMint, GenesisToken.mint]
    by_cases h0 : a = 0
    · rw [if_pos h0]
      simp [h0]
    · rw [if_neg h0, Nat.mod_eq_of_lt (show st.mintedSupply + a < 2 ^ 256 by omega)]
      by_cases hover : st.maxSupply < st.mintedSupply + a
      · rw [if_pos hover]
        simp [h0]
      · rw [if_neg hover]
        cases cap <;> simp [h0]
  · simp only [runMint, GenesisToken.mint]
    by_cases h0 : a = 0
    · rw [if_pos h0]
      simp
      omega
    · rw [if_neg h0, Nat.mod_eq_of_lt (show st.mintedSupply + a < 2 ^ 256 by omega)]
      by_cases hover : st.maxSupply < st.mintedSupply + a
      · rw [if_pos hover]
        simp
        omega
      · rw [if_neg hover]
        cases cap <;> simp <;> omega

/-- Witness for C2: on the example token, minting 0 units fails with
`InvalidArgument`, and a failing call keeps the state. -/
theorem mint_failure_characterization_witness :
    ((runMint stEx 2 3 0 true).2 = .error .invalidArgument ↔ (0 : Nat) = 0) ∧
    ((runMint stEx 2 3 0 true).2 = .error .supplyExceeded ↔
      stEx.maxSupply < stEx.mintedSupply + 0) ∧
    (∀ e : GenesisError, (runMint stEx 2 3 0 true).2 = .error e →
      (runMint stEx 2 3 0 true).1 = stEx) :=
  mint_failure_characterization stEx 2 3 0 true (by decide) (by decide) (by decide)

/-- Counterexample to C3 as stated: with `mintedSupply = 0`,
`maxSupply = 1000000` and `amount = 0`, the exact sum `0 + 0` is within
the cap, yet `mint` does not succeed (it reverts with "Amount required"),
so "mint succeeds if and only if the exact integer sum is within the cap"
fails at `amount = 0`. -/
theorem mint_cap_check_counterexample :
    ¬ (((runMint stEx 2 3 0 true).2 = .ok ()) ↔
      stEx.mintedSupply + 0 ≤ stEx.maxSupply) := by decide

/-- C3 (amended): for every 64-bit `mintedSupply`, every positive 64-bit
`amount` — including values where `mintedSupply + amount` exceeds
`2 ^ 64 - 1` — `mint` succeeds if and only if the exact (unbounded)
integer sum `mintedSupply + amount` is at most `maxSupply`: the widened
cap check admits no silent 64-bit wraparound. -/
theorem mint_widened_cap_check (st : TokenState) (c r a : Nat)
    (hm : st.mintedSupply < 2 ^ 64) (ha : a < 2 ^ 64) (h0 : 0 < a) :
    (runMint st c r a true).2 = .ok () ↔ st.mintedSupply + a ≤ st.maxSupply :=
  mint_ok_iff st c r a hm ha h0

/-- Witness for C3 (amended), at the 64-bit boundary: with
`mintedSupply = maxSupply = 2 ^ 64 - 1`, minting 2 more would wrap to 1
under 64-bit arithmetic, but the call does not succeed — both sides of
the equivalence are false — and on the example token a mint of 5 does
succeed. -/
theorem mint_widened_cap_check_witness :
    ((runMint stNear 2 3 2 true).2 = .ok () ↔
      stNear.mintedSupply + 2 ≤ stNear.maxSupply) ∧
    ((runMint stEx 2 3 5 true).2 = .ok () ↔
      stEx.mintedSupply + 5 ≤ stEx.maxSupply) :=
  ⟨mint_widened_cap_check stNear 2 3 2 (by decide) (by decide) (by decide),
    mint_widened_cap_check stEx 2 3 5 (by decide) (by decide) (by decide)⟩

/-- C8: `mint` is unauthenticated — the call's success-or-failure outcome
and the resulting `mintedSupply` (and ledger) are the same for any two
callers, and in particular a caller different from the token's creator
succeeds in minting to an arbitrary recipient whenever the amount is
positive and within the cap. -/
theorem mint_caller_agnostic (st : TokenState) (c1 c2 r a : Nat) (cap : Bool) :
    ((runMint st c1 r a cap).2 = (runMint st c2 r a cap).2 ∧
      (runMint st c1 r a cap).1.mintedSupply = (runMint st c2 r a cap).1.mintedSupply ∧
      (runMint st c1 r a cap).1.ledger = (runMint st c2 r a cap).1.ledger) ∧
    (c1 ≠ st.creator → st.mintedSupply < 2 ^ 64 → a < 2 ^ 64 → 0 < a →
      st.mintedSupply + a ≤ st.maxSupply → (runMint st c1 r a true).2 = .ok ()) := by
  constructor
  · simp only [runMint, GenesisToken.mint]
    by_cases h0 : a = 0
    · simp only [if_pos h0]
      exact ⟨trivial, trivial, trivial⟩
    · simp only [if_neg h0]
      by_cases hover : st.maxSupply < (st.mintedSupply + a) % 2 ^ 256
      · simp only [if_pos hover]
        exact ⟨trivial, trivial, trivial⟩
      · simp only [if_neg hover]
        cases cap
        · exact ⟨rfl, rfl, rfl⟩
        · exact ⟨rfl, rfl, rfl⟩
  · intro _ hm ha h0 hle
    exact (mint_ok_iff st c1 r a hm ha h0).mpr hle

/-- Witness for C8: caller 9 is not the creator (1) of the example token
and still mints 5 units to recipient 3. -/
theorem mint_caller_agnostic_witness :
    ((runMint stEx 9 3 5 true).2 = (runMint stEx 4 3 5 true).2 ∧
      (runMint stEx 9 3 5 true).1.mintedSupply =
        (runMint stEx 4 3 5 true).1.mintedSupply ∧
      (runMint stEx 9 3 5 true).1.ledger = (runMint stEx 4 3 5 true).1.ledger) ∧
    (runMint stEx 9 3 5 true).2 = .ok () :=
  ⟨(mint_caller_agnostic stEx 9 4 3 5 true).1,
    (mint_caller_agnostic stEx 9 4 3 5 true).2 (by decide) (by decide) (by decide)
      (by decide) (by decide)⟩

/-- C9: when the confidential-computation capability fails during a
`mint` call, the whole call fails and the token state — in particular
`mintedSupply` — is exactly the pre-call state: supply update and
confidential credit take effect together or not at all. -/
theorem mint_capability_failure_atomic (st : TokenState) (c r a : Nat) :
    (runMint st c r a false).1 = st ∧
    ∃ e : GenesisError, (runMint st c r a false).2 = .error e := by
  simp only [runMint, GenesisToken.mint]
  by_cases h0 : a = 0
  · rw [if_pos h0]
    exact ⟨rfl, .invalidArgument, rfl⟩
  · rw [if_neg h0]
    by_cases hover : st.maxSupply < (st.mintedSupply + a) % 2 ^ 256
    · rw [if_pos hover]
      exact ⟨rfl, .supplyExceeded, rfl⟩
    · rw [if_neg hover]
      exact ⟨rfl, .capabilityFailure, rfl⟩

/-- C4: `createToken` fails with `InvalidArgument` whenever the name is
empty, the symbol is empty, or `maxSupply = 0`, and then the whole
factory state (registry sequence and deployed instances) is unchanged and
no token instance is created. -/
theorem createToken_invalid_argument (fs : FactoryState) (caller : Nat)
    (name symbol : String) (maxSupply priceWei : Nat)
    (h : name = "" ∨ symbol = "" ∨ maxSupply = 0) :
    runCreate fs caller name symbol maxSupply priceWei = (fs, .error .invalidArgument) := by
  rcases h with h | h | h
  · simp [runCreate, GenesisTokenFactory.createToken, GenesisToken.new, h]
  · by_cases h1 : name = "" <;>
      simp [runCreate, GenesisTokenFactory.createToken, GenesisToken.new, h, h1]
  · by_cases h1 : name = "" <;> by_cases h2 : symbol = "" <;>
      simp [runCreate, GenesisTokenFactory.createToken, GenesisToken.new, h, h1, h2]

/-- Witness for C4: creating a token with an empty name on the empty
factory fails with `InvalidArgument` and leaves the factory empty. -/
theorem createToken_invalid_argument_witness :
    runCreate fsEx 1 "" "gUSD" 1000000 50 = (fsEx, .error .invalidArgument) :=
  createToken_invalid_argument fsEx 1 "" "gUSD" 1000000 50 (Or.inl rfl)

/-- A successful `createToken` call, written out: the factory state gains
one metadata record and one deployed instance, and the new handle is
returned. -/
theorem createToken_ok (fs : FactoryState) (caller : Nat) (name symbol : String)
    (maxSupply priceWei : Nat) (hn : name ≠ "") (hs : symbol ≠ "") (hm : maxSupply ≠ 0) :
    runCreate fs caller name symbol maxSupply priceWei =
      ({ tokens := fs.tokens ++
          [{ token := fs.instances.length, name := name, symbol := symbol,
             maxSupply := maxSupply, mintedSupply := 0, initialPriceWei := priceWei,
             creator := caller }],
         instances := fs.instances ++
          [{ name := name, symbol := symbol, maxSupply := maxSupply, mintedSupply := 0,
             initialPriceWei := priceWei, creator := caller, ledger := [], events := [] }] },
       .ok fs.instances.length) := by
  simp [runCreate, GenesisTokenFactory.createToken, GenesisToken.new, hn, hs, hm]

/-- Reading the live supply of a freshly appended instance. -/
theorem liveSupply_append (ms : List TokenMetadata) (insts : List TokenState)
    (inst : TokenState) :
    FactoryState.liveSupply { tokens := ms, instances := insts ++ [inst] } insts.length =
      inst.mintedSupply := by
  simp only [FactoryState.liveSupply]
  rw [List.getElem?_concat_length]
  rfl

/-- C5: a successful `createToken` increases `tokenCount` by exactly 1,
modifies no existing record, and appends exactly one record whose
`mintedSupply`, as reported by both `getToken` and `getTokens`, is 0. -/
theorem createToken_success_effects (fs : FactoryState) (caller : Nat)
    (name symbol : String) (maxSupply priceWei : Nat)
    (hn : name ≠ "") (hs : symbol ≠ "") (hm : maxSupply ≠ 0) :
    GenesisTokenFactory.tokenCount (runCreate fs caller name symbol maxSupply priceWei).1 =
      GenesisTokenFactory.tokenCount fs + 1 ∧
    (∀ i : Nat, i < GenesisTokenFactory.tokenCount fs →
      (runCreate fs caller name symbol maxSupply priceWei).1.tokens[i]? =
        fs.tokens[i]?) ∧
    (∃ md : TokenMetadata,
      GenesisTokenFactory.getToken (runCreate fs caller name symbol maxSupply priceWei).1
          (GenesisTokenFactory.tokenCount fs) = .ok md ∧
      md.mintedSupply = 0 ∧
      (GenesisTokenFactory.getTokens
          (runCreate fs caller name symbol maxSupply priceWei).1)[GenesisTokenFactory.tokenCount fs]? =
        some md) := by
  rw [createToken_ok fs caller name symbol maxSupply priceWei hn hs hm]
  simp only [GenesisTokenFactory.tokenCount]
  refine ⟨?_, ?_, ?_⟩
  · show (fs.tokens ++ _).length = fs.tokens.length + 1
    rw [List.length_append]
    rfl
  · intro i hi
    show (fs.tokens ++ _)[i]? = fs.tokens[i]?
    rw [List.getElem?_append, if_pos hi]
  · refine ⟨⟨fs.instances.length, name, symbol, maxSupply, 0, priceWei, caller⟩, ?_, rfl, ?_⟩
    · simp only [GenesisTokenFactory.getToken]
      rw [List.getElem?_concat_length]
      dsimp only
      rw [liveSupply_append]
    · simp only [GenesisTokenFactory.getTokens]
      rw [List.getElem?_map, List.getElem?_concat_length, Option.map_some']
      dsimp only
      rw [liveSupply_append]

/-- Witness for C5 on the repository's test scenario: creating
"Genesis USD" on the fresh factory gives count 1, and the new record is
reported with `mintedSupply = 0` by both read paths. -/
theorem createToken_success_effects_witness :
    GenesisTokenFactory.tokenCount (runCreate fsEx 1 "Genesis USD" "gUSD" 1000000 50).1 =
      GenesisTokenFactory.tokenCount fsEx + 1 ∧
    (∀ i : Nat, i < GenesisTokenFactory.tokenCount fsEx →
      (runCreate fsEx 1 "Genesis USD" "gUSD" 1000000 50).1.tokens[i]? =
        fsEx.tokens[i]?) ∧
    (∃ md : TokenMetadata,
      GenesisTokenFactory.getToken (runCreate fsEx 1 "Genesis USD" "gUSD" 1000000 50).1
          (GenesisTokenFactory.tokenCount fsEx) = .ok md ∧
      md.mintedSupply = 0 ∧
      (GenesisTokenFactory.getTokens
          (runCreate fsEx 1 "Genesis USD" "gUSD" 1000000 50).1)[GenesisTokenFactory.tokenCount fsEx]? =
        some md) :=
  createToken_success_effects fsEx 1 "Genesis USD" "gUSD" 1000000 50
    (by decide) (by decide) (by decide)

/-- C6: `getTokens` returns one record per stored record and in the same
(creation) order: at every position it returns exactly the stored record
with its `mintedSupply` field replaced by the live read from the
corresponding token instance.  (`getTokens` is a pure function of the
factory state, so the call changes no registry or token state.) -/
theorem getTokens_live_merge (fs : FactoryState) (i : Nat) :
    (GenesisTokenFactory.getTokens fs).length = fs.tokens.length ∧
    (GenesisTokenFactory.getTokens fs)[i]? =
      (fs.tokens[i]?).map fun stored =>
        { stored with mintedSupply := fs.liveSupply stored.token } :=
  ⟨List.length_map _ _, List.getElem?_map _ _ _⟩

/-- C7: `getToken index` fails with `IndexOutOfRange` exactly for
`index >= tokenCount`, and for `index < tokenCount` it returns the stored
record with its `mintedSupply` replaced by the live value of the
corresponding instance. -/
theorem getToken_index_characterization (fs : FactoryState) (i : Nat) :
    GenesisTokenFactory.tokenCount fs = fs.tokens.length ∧
    (fs.tokens.length ≤ i →
      GenesisTokenFactory.getToken fs i = .error .indexOutOfRange) ∧
    (∀ h : i < fs.tokens.length,
      GenesisTokenFactory.getToken fs i =
        .ok { fs.tokens[i] with mintedSupply := fs.liveSupply fs.tokens[i].token }) := by
  refine ⟨rfl, ?_, ?_⟩
  · intro hle
    simp only [GenesisTokenFactory.getToken]
    rw [List.getElem?_eq_none hle]
  · intro h
    simp only [GenesisTokenFactory.getToken]
    rw [List.getElem?_eq_getElem h]

/-- Witness for C7: the one-token factory rejects index 1 with
`IndexOutOfRange` and serves index 0 with the live-merged record. -/
theorem getToken_index_characterization_witness :
    GenesisTokenFactory.getToken fsEx1 1 = .error .indexOutOfRange ∧
    GenesisTokenFactory.getToken fsEx1 0 =
      .ok ⟨0, "Genesis USD", "gUSD", 1000000, 0, 50, 1⟩ := by
  constructor
  · exact (getToken_index_characterization fsEx1 1).2.1 (by decide)
  · exact ((getToken_index_characterization fsEx1 0).2.2 (by decide)).trans (by decide)

/-- C10: the single-record read and the fan-out read agree — for every
index, `getToken` returns (as an `Option`) precisely the entry that
`getTokens` has at that index; in particular every valid index yields the
same live-merged record on both paths. -/
theorem getToken_agrees_getTokens (fs : FactoryState) (i : Nat) :
    (GenesisTokenFactory.getToken fs i).toOption =
      (GenesisTokenFactory.getTokens fs)[i]? := by
  cases hx : fs.tokens[i]? <;>
    simp [GenesisTokenFactory.getToken, GenesisTokenFactory.getTokens,
      List.getElem?_map, hx, Except.toOption]
